import Mathlib

/-!
Verification of the retrieval-and-ranking engine of the TDS Virtual TA
repository (`qa_engine.py`).

Text is modelled as `List Char` (an ASCII-faithful model of Python `str`
for the character classes the engine uses).  Scores are modelled as `ℚ`
(the Python float literal `0.8` is modelled as the exact rational `4/5`).
The external fuzzy-matching primitive `fuzz.partial_ratio` from the
`fuzzywuzzy` library is not part of this repository; every engine
definition is therefore parameterised by a similarity function
`ratio : List Char → List Char → ℚ`, and theorems that need facts about
it (its 0–100 range, or that an empty side yields 0) take them as
hypotheses, exactly as the spec states them.
-/

namespace VirtualTA

/-! ### Character primitives

ASCII models of the Python character classes used by `qa_engine.py`:
`str.lower`, the regex class `\s`, and the regex class `\w`. -/

/-- Model of Python whitespace (`\s`, `str.strip`) on ASCII:
space, tab, newline, carriage return, vertical tab, form feed. -/
def isPySpace (c : Char) : Bool :=
  decide (c.toNat = 32 ∨ c.toNat = 9 ∨ c.toNat = 10 ∨ c.toNat = 13 ∨
    c.toNat = 11 ∨ c.toNat = 12)

/-- Model of the regex class `\w` on ASCII: digits, upper and lower case
letters, and underscore. -/
def isWordChar (c : Char) : Bool :=
  decide ((48 ≤ c.toNat ∧ c.toNat ≤ 57) ∨ (65 ≤ c.toNat ∧ c.toNat ≤ 90) ∨
    (97 ≤ c.toNat ∧ c.toNat ≤ 122) ∨ c.toNat = 95)

/-- Model of Python `str.lower` per character (ASCII): map `A`–`Z` to
`a`–`z`, leave everything else unchanged. -/
def pyLower (c : Char) : Char :=
  if 65 ≤ c.toNat ∧ c.toNat ≤ 90 then Char.ofNat (c.toNat + 32) else c

/-- Characters kept by `preprocess_text`, from the regex
`[^\w\s\-\.\?\!]` in `qa_engine.py` line 57: word characters,
whitespace, hyphen, period, question mark, exclamation mark. -/
def keptChar (c : Char) : Bool :=
  isWordChar c || isPySpace c ||
    decide (c.toNat = 45 ∨ c.toNat = 46 ∨ c.toNat = 63 ∨ c.toNat = 33)

/-- Model of one regex-substitution step of `re.sub(r'\s+', ' ', text)`:
map every whitespace character to a plain space. -/
def wsToSp (c : Char) : Char :=
  if isPySpace c then ' ' else c

/-- Model of the run-collapsing part of `re.sub(r'\s+', ' ', text)`:
collapse every run of adjacent spaces to a single space (applied after
`wsToSp`, so at that point all whitespace is the space character). -/
def squeeze : List Char → List Char
  | [] => []
  | [c] => [c]
  | a :: b :: r =>
    if a = ' ' ∧ b = ' ' then squeeze (b :: r) else a :: squeeze (b :: r)

/-- Adjacency relation used to state that a string has no two adjacent
spaces (the shape `squeeze` establishes). -/
def noTwo (a b : Char) : Prop :=
  ¬(a = ' ' ∧ b = ' ')

/-- Helper for `pyStrip`: remove trailing whitespace. -/
def dropTrail (l : List Char) : List Char :=
  (l.reverse.dropWhile isPySpace).reverse

/-- Model of Python `str.strip()`: remove leading and trailing
whitespace. -/
def pyStrip (l : List Char) : List Char :=
  dropTrail (l.dropWhile isPySpace)

/-- Embedding of `QAEngine.preprocess_text` (`qa_engine.py` lines
45–59): empty input is returned unchanged; otherwise lowercase, collapse
whitespace runs to single spaces and strip the ends, then remove every
character outside `[\w\s\-\.\?\!]`. -/
def preprocess_text (text : List Char) : List Char :=
  if text = [] then []
  else (pyStrip (squeeze ((text.map pyLower).map wsToSp))).filter keptChar

/-! ### Keyword extraction -/

/-- Model of the Python substring test `needle in haystack`. -/
def isSubstr (needle haystack : List Char) : Bool :=
  haystack.tails.any fun t => needle.isPrefixOf t

/-- Fixed domain vocabulary `tech_terms` from `qa_engine.py` lines
68–73. -/
def tech_terms : List (List Char) :=
  ["python".data, "pandas".data, "numpy".data, "matplotlib".data,
   "seaborn".data, "sklearn".data, "jupyter".data, "notebook".data,
   "dataframe".data, "csv".data, "api".data, "sql".data, "database".data,
   "visualization".data, "plot".data, "chart".data, "regression".data,
   "classification".data, "machine learning".data, "ml".data,
   "data science".data, "statistics".data, "analysis".data]

/-- Helper modelling `re.findall(r'\b\w{4,}\b', text)` together with the
maximal-run scan: accumulate the current run of word characters
(reversed) and emit each maximal run when it ends. -/
def wordRunsAux : List Char → List Char → List (List Char)
  | [], acc => if acc = [] then [] else [acc.reverse]
  | c :: cs, acc =>
    if isWordChar c then wordRunsAux cs (c :: acc)
    else if acc = [] then wordRunsAux cs []
    else acc.reverse :: wordRunsAux cs []

/-- Maximal runs of word characters of a string, in order. -/
def wordRuns (l : List Char) : List (List Char) :=
  wordRunsAux l []

/-- Embedding of `QAEngine.extract_keywords` (`qa_engine.py` lines
61–83): the vocabulary terms occurring in the lowercased question, plus
the first 10 word tokens of length at least 4, deduplicated.  Python
returns `list(set(keywords))`, whose order is unspecified; the engine
only ever counts members of this list, so it is modelled by `dedup`. -/
def extract_keywords (text : List Char) : List (List Char) :=
  let text_lower := text.map pyLower
  let kws := tech_terms.filter fun term => isSubstr term text_lower
  let words := (wordRuns text_lower).filter fun w => 4 ≤ w.length
  (kws ++ words.take 10).dedup

/-! ### Data model

Corpus records are loosely typed dictionaries in the source; `get` with
a default models a possibly missing key (`none` = key absent). -/

/-- Forum post record: the fields of `data/tds_posts.json` that the
engine reads (`title`, `content`, `url`). -/
structure Post where
  title : Option (List Char)
  content : Option (List Char)
  url : Option (List Char)
  deriving DecidableEq

/-- Course content record: the fields of `data/course_content.json` that
the engine reads (`title`, `description`, `url`). -/
structure ContentItem where
  title : Option (List Char)
  description : Option (List Char)
  url : Option (List Char)
  deriving DecidableEq

/-- Scored post match as built in `find_similar_posts` lines 111–117. -/
structure ScoredPost where
  post : Post
  score : ℚ
  title_score : ℚ
  content_score : ℚ
  keyword_matches : ℕ
  deriving DecidableEq

/-- Scored content match as built in `find_relevant_content` lines
147–151. -/
structure ScoredContent where
  content : ContentItem
  score : ℚ
  keyword_matches : ℕ
  deriving DecidableEq

/-! ### Similarity scorers -/

/-- Keyword bonus for posts, `qa_engine.py` line 106:
`min(keyword_matches * 10, 30)`. -/
def post_keyword_bonus (keyword_matches : ℕ) : ℚ :=
  min ((keyword_matches : ℚ) * 10) 30

/-- Keyword bonus for content items, `qa_engine.py` line 142:
`min(keyword_matches * 15, 40)`. -/
def content_keyword_bonus (keyword_matches : ℕ) : ℚ :=
  min ((keyword_matches : ℚ) * 15) 40

/-- Score fusion for posts, `qa_engine.py` lines 101–108:
`max(title_score, content_score * 0.8)` plus the keyword bonus.  The
float literal `0.8` is modelled as the exact rational `4/5`. -/
def post_final (title_score content_score : ℚ) (keyword_matches : ℕ) : ℚ :=
  max title_score (content_score * (4 / 5)) + post_keyword_bonus keyword_matches

/-- Score fusion for content items, `qa_engine.py` line 144. -/
def content_final (score : ℚ) (keyword_matches : ℕ) : ℚ :=
  score + content_keyword_bonus keyword_matches

/-- Loop body of `find_similar_posts` (`qa_engine.py` lines 93–117) for
one post: combined post text, fuzzy component scores, keyword matches,
fused final score.  `keywords` and `question_processed` are computed
from the question by the caller. -/
def score_post (ratio : List Char → List Char → ℚ)
    (keywords : List (List Char)) (question_processed : List Char)
    (post : Post) : ScoredPost :=
  let post_text := post.title.getD [] ++ ' ' :: post.content.getD []
  let post_text_processed := preprocess_text post_text
  let title_score := ratio question_processed (preprocess_text (post.title.getD []))
  let content_score := ratio question_processed post_text_processed
  let keyword_matches := keywords.countP fun kw => isSubstr kw post_text_processed
  { post := post
    score := post_final title_score content_score keyword_matches
    title_score := title_score
    content_score := content_score
    keyword_matches := keyword_matches }

/-- Loop body of `find_relevant_content` (`qa_engine.py` lines 131–151)
for one content item. -/
def score_content (ratio : List Char → List Char → ℚ)
    (keywords : List (List Char)) (question_processed : List Char)
    (content : ContentItem) : ScoredContent :=
  let content_text := content.title.getD [] ++ ' ' :: content.description.getD []
  let content_text_processed := preprocess_text content_text
  let score := ratio question_processed content_text_processed
  let keyword_matches := keywords.countP fun kw => isSubstr kw content_text_processed
  { content := content
    score := content_final score keyword_matches
    keyword_matches := keyword_matches }

/-! ### Retrieval: threshold filter, stable descending sort, top-k

Python `list.sort(key=lambda x: x['score'], reverse=True)` is a stable
sort descending by score; it is modelled by `List.insertionSort` with
the total transitive relation `keyGe key` (`key b ≤ key a`), which is
stable in exactly the same sense. -/

/-- Descending-by-key comparison used to model
`sort(key=..., reverse=True)`. -/
def keyGe {α : Type} (key : α → ℚ) (a b : α) : Prop :=
  key b ≤ key a

instance {α : Type} (key : α → ℚ) : DecidableRel (keyGe key) :=
  fun a b => inferInstanceAs (Decidable (key b ≤ key a))

instance {α : Type} (key : α → ℚ) : IsTotal α (keyGe key) :=
  ⟨fun a b => (le_total (key a) (key b)).symm⟩

instance {α : Type} (key : α → ℚ) : IsTrans α (keyGe key) :=
  ⟨fun _ _ _ hab hbc => le_trans hbc hab⟩

/-- Threshold-filtering loop of `find_similar_posts` lines 93–117:
score every post and keep those with `final_score >= threshold`, in
corpus order. -/
def collectPosts (ratio : List Char → List Char → ℚ)
    (keywords : List (List Char)) (question_processed : List Char)
    (threshold : ℚ) : List Post → List ScoredPost
  | [] => []
  | p :: ps =>
    let s := score_post ratio keywords question_processed p
    if threshold ≤ s.score then
      s :: collectPosts ratio keywords question_processed threshold ps
    else collectPosts ratio keywords question_processed threshold ps

/-- Threshold-filtering loop of `find_relevant_content` lines 131–151. -/
def collectContent (ratio : List Char → List Char → ℚ)
    (keywords : List (List Char)) (question_processed : List Char)
    (threshold : ℚ) : List ContentItem → List ScoredContent
  | [] => []
  | c :: cs =>
    let s := score_content ratio keywords question_processed c
    if threshold ≤ s.score then
      s :: collectContent ratio keywords question_processed threshold cs
    else collectContent ratio keywords question_processed threshold cs

/-- Embedding of `QAEngine.find_similar_posts` (`qa_engine.py` lines
85–121): empty corpus short-circuits to `[]`; otherwise filter by
threshold (default 60 at the call site), sort stably by descending
score, return the top 5. -/
def find_similar_posts (ratio : List Char → List Char → ℚ)
    (discourse_posts : List Post) (question : List Char)
    (threshold : ℚ) : List ScoredPost :=
  if discourse_posts = [] then []
  else
    (List.insertionSort (keyGe ScoredPost.score)
      (collectPosts ratio (extract_keywords question)
        (preprocess_text question) threshold discourse_posts)).take 5

/-- Embedding of `QAEngine.find_relevant_content` (`qa_engine.py` lines
123–155): as for posts, with threshold 50 at the call site and top 3. -/
def find_relevant_content (ratio : List Char → List Char → ℚ)
    (course_content : List ContentItem) (question : List Char)
    (threshold : ℚ) : List ScoredContent :=
  if course_content = [] then []
  else
    (List.insertionSort (keyGe ScoredContent.score)
      (collectContent ratio (extract_keywords question)
        (preprocess_text question) threshold course_content)).take 3

/-! ### Answer synthesis and link aggregation -/

/-- Apostrophe character (codepoint 39), used inside two of the fixed
message templates. -/
def apos : Char := Char.ofNat 39

/-- Lead-in sentence of `generate_answer`, `qa_engine.py` line 163. -/
def leadInMessage : List Char :=
  "Based on the available course materials and forum discussions, here".data
    ++ apos :: "s what I found:".data

/-- Fixed fallback message of `generate_answer`, `qa_engine.py` lines
165–166. -/
def fallbackMessage : List Char :=
  "I couldn".data ++ apos ::
    "t find specific information related to your question in the current knowledge base. Please try rephrasing your question or contact the course instructor for assistance.".data

/-- Fixed prompt returned for a blank question, `qa_engine.py` line
203. -/
def promptMessage : List Char :=
  "Please provide a valid question.".data

/-- Bullet line for one content item, `qa_engine.py` lines 172–178. -/
def contentBullet (item : ScoredContent) : List Char :=
  let title := item.content.title.getD "Untitled".data
  let description := item.content.description.getD []
  if description = [] then "• **".data ++ title ++ "**".data
  else "• **".data ++ title ++ "**: ".data ++ description.take 200 ++ "...".data

/-- Bullet line for one forum post, `qa_engine.py` lines 184–192: the
preview is the text before the first period within the first 300
characters, with a period appended. -/
def postBullet (item : ScoredPost) : List Char :=
  let title := item.post.title.getD "Untitled Post".data
  let content := item.post.content.getD []
  if content = [] then "• **".data ++ title ++ "**".data
  else
    let content_preview := (content.take 300).takeWhile (fun c => c ≠ '.') ++ ['.']
    "• **".data ++ title ++ "**: ".data ++ content_preview

/-- Embedding of `QAEngine.generate_answer` (`qa_engine.py` lines
157–197): fixed fallback when both result sets are empty, otherwise a
lead-in, up to two content bullets, up to two post bullets, and a fixed
closing line, joined by newlines. -/
def generate_answer (question : List Char) (similar_posts : List ScoredPost)
    (relevant_content : List ScoredContent) : List Char :=
  if similar_posts = [] ∧ relevant_content = [] then fallbackMessage
  else
    let parts1 : List (List Char) := [leadInMessage]
    let parts2 :=
      if relevant_content = [] then parts1
      else parts1 ++
        ("\n**Course Content:**".data :: (relevant_content.take 2).map contentBullet)
    let parts3 :=
      if similar_posts = [] then parts2
      else parts2 ++
        ("\n**Related Forum Discussions:**".data :: (similar_posts.take 2).map postBullet)
    List.intercalate ['\n']
      (parts3 ++ ["\nFor more detailed information, please check the supporting links provided below.".data])

/-- Supporting link entry, `{url, text}`. -/
structure Link where
  url : List Char
  text : List Char
  deriving DecidableEq

/-- Answer payload `{answer, links}` returned by `get_answer`. -/
structure Payload where
  answer : List Char
  links : List Link
  deriving DecidableEq

/-- Link built from one retrieved content item, `qa_engine.py` lines
218–224: emitted only when the record has a non-empty `url`. -/
def contentLink (item : ScoredContent) : Option Link :=
  match item.content.url with
  | none => none
  | some u =>
    if u = [] then none
    else some ⟨u, "Course Material: ".data ++ item.content.title.getD "Untitled".data⟩

/-- Link built from one retrieved post, `qa_engine.py` lines 227–233. -/
def postLink (item : ScoredPost) : Option Link :=
  match item.post.url with
  | none => none
  | some u =>
    if u = [] then none
    else some ⟨u, "Forum Discussion: ".data ++ item.post.title.getD "Untitled Post".data⟩

/-- Link-emitting loop over retrieved content items, `qa_engine.py`
lines 218–224. -/
def contentLinks : List ScoredContent → List Link
  | [] => []
  | c :: cs =>
    match contentLink c with
    | some l => l :: contentLinks cs
    | none => contentLinks cs

/-- Link-emitting loop over retrieved posts, `qa_engine.py` lines
227–233. -/
def postLinks : List ScoredPost → List Link
  | [] => []
  | p :: ps =>
    match postLink p with
    | some l => l :: postLinks ps
    | none => postLinks ps

/-- Embedding of `QAEngine.get_answer` (`qa_engine.py` lines 199–241):
blank questions short-circuit to a fixed prompt with no links; otherwise
retrieve from both corpora (thresholds 60 and 50), synthesize the
answer, emit content links then post links, and cap the list at 5. -/
def get_answer (ratio : List Char → List Char → ℚ)
    (discourse_posts : List Post) (course_content : List ContentItem)
    (question : List Char) : Payload :=
  if question = [] ∨ pyStrip question = [] then ⟨promptMessage, []⟩
  else
    let similar_posts := find_similar_posts ratio discourse_posts question 60
    let relevant_content := find_relevant_content ratio course_content question 50
    let answer := generate_answer question similar_posts relevant_content
    let links := (contentLinks relevant_content ++ postLinks similar_posts).take 5
    ⟨answer, links⟩

/-- Statistics record returned by `get_stats`, with the `datetime.now()`
timestamp modelled as an abstract clock value. -/
structure Stats where
  discourse_posts : ℕ
  course_content_items : ℕ
  total_items : ℕ
  last_updated : ℕ
  deriving DecidableEq

/-- Embedding of `QAEngine.get_stats` (`qa_engine.py` lines 243–250):
the two corpus sizes, their sum, and the current clock value. -/
def get_stats (discourse_posts : List Post) (course_content : List ContentItem)
    (now : ℕ) : Stats :=
  ⟨discourse_posts.length, course_content.length,
    discourse_posts.length + course_content.length, now⟩

/-- Request-time invocation of `get_answer` with the process clock made
explicit: the answer path of the source reads no clock and uses no
randomness (`datetime.now()` appears only in `get_stats`), so the clock
argument is not consumed. -/
def handle_question (ratio : List Char → List Char → ℚ)
    (discourse_posts : List Post) (course_content : List ContentItem)
    (question : List Char) (now : ℕ) : Payload :=
  get_answer ratio discourse_posts course_content question

/-! ### Character-level lemmas -/

theorem char_toNat_ofNat {n : Nat} (h : n < 55296) : (Char.ofNat n).toNat = n := by
  rw [Char.ofNat, dif_pos (Or.inl h)]
  rfl

theorem pyLower_toNat (c : Char) :
    (pyLower c).toNat = if 65 ≤ c.toNat ∧ c.toNat ≤ 90 then c.toNat + 32 else c.toNat := by
  unfold pyLower
  split
  · next h => exact char_toNat_ofNat (by omega)
  · rfl

theorem pyLower_idem (c : Char) : pyLower (pyLower c) = pyLower c := by
  unfold pyLower
  split
  · next h =>
    rw [if_neg]
    rw [char_toNat_ofNat (by omega)]
    omega
  · rfl

theorem pyLower_space : pyLower ' ' = ' ' := by
  decide

theorem wsToSp_lower_fix (a : Char) : pyLower (wsToSp (pyLower a)) = wsToSp (pyLower a) := by
  unfold wsToSp
  split
  · exact pyLower_space
  · exact pyLower_idem a

theorem wsToSp_space (a : Char) :
    isPySpace (wsToSp (pyLower a)) = true → wsToSp (pyLower a) = ' ' := by
  unfold wsToSp
  split
  · intro _; rfl
  · next h => intro hs; exact absurd hs (by simp [h])

/-! ### dropWhile, dropTrail and pyStrip lemmas -/

theorem dw_head_false {α : Type} (p : α → Bool) :
    ∀ (l : List α) (a : α), (l.dropWhile p).head? = some a → p a = false
  | [], a => by intro h; simp [List.dropWhile] at h
  | x :: xs, a => by
    intro h
    by_cases hx : p x
    · rw [List.dropWhile_cons_of_pos hx] at h
      exact dw_head_false p xs a h
    · rw [List.dropWhile_cons_of_neg hx] at h
      simp at h
      subst h
      exact Bool.eq_false_iff.mpr hx

theorem dw_fix_of_head {α : Type} (p : α → Bool) (l : List α)
    (h : ∀ a, l.head? = some a → p a = false) : l.dropWhile p = l := by
  cases l with
  | nil => rfl
  | cons x xs =>
    have := h x rfl
    rw [List.dropWhile_cons_of_neg (by simp [this])]

theorem dropWhile_idem {α : Type} (p : α → Bool) (l : List α) :
    (l.dropWhile p).dropWhile p = l.dropWhile p :=
  dw_fix_of_head p _ (dw_head_false p l)

theorem prefix_dw_fix {α : Type} (p : α → Bool) {m l : List α}
    (hp : m <+: l) (hl : l.dropWhile p = l) : m.dropWhile p = m := by
  cases m with
  | nil => rfl
  | cons a t =>
    obtain ⟨s, hs⟩ := hp
    rw [List.cons_append] at hs
    subst hs
    have ha : p a = false := by
      by_contra hpa
      have hpa' : p a = true := by
        cases h : p a
        · exact absurd h hpa
        · rfl
      rw [List.dropWhile_cons_of_pos hpa'] at hl
      have hlen := (List.dropWhile_sublist (l := t ++ s) p).length_le
      have := congrArg List.length hl
      rw [List.length_cons] at this
      omega
    rw [List.dropWhile_cons_of_neg (by simp [ha])]

theorem prefix_dropTrail (l : List Char) : dropTrail l <+: l := by
  unfold dropTrail
  have h := List.dropWhile_suffix (l := l.reverse) isPySpace
  have := List.reverse_prefix.mpr h
  simpa using this

theorem dropTrail_idem (l : List Char) : dropTrail (dropTrail l) = dropTrail l := by
  unfold dropTrail
  rw [List.reverse_reverse, dropWhile_idem]

theorem pyStrip_idem (l : List Char) : pyStrip (pyStrip l) = pyStrip l := by
  unfold pyStrip
  have h1 : (l.dropWhile isPySpace).dropWhile isPySpace = l.dropWhile isPySpace :=
    dropWhile_idem _ _
  have h2 : (dropTrail (l.dropWhile isPySpace)).dropWhile isPySpace
      = dropTrail (l.dropWhile isPySpace) :=
    prefix_dw_fix _ (prefix_dropTrail _) h1
  rw [h2, dropTrail_idem]

theorem pyStrip_subset {c : Char} {l : List Char} (h : c ∈ pyStrip l) : c ∈ l := by
  obtain ⟨t, ht⟩ := prefix_dropTrail (l.dropWhile isPySpace)
  obtain ⟨u, hu⟩ := List.dropWhile_suffix (l := l) isPySpace
  have hps : pyStrip l = dropTrail (l.dropWhile isPySpace) := rfl
  have he : u ++ (pyStrip l ++ t) = l := by
    rw [hps, ht, hu]
  rw [← he]
  simp
  exact Or.inr (Or.inl h)

theorem noTwo_symm {a b : Char} (h : noTwo a b) : noTwo b a :=
  fun hc => h ⟨hc.2, hc.1⟩

theorem chain_dw {α : Type} {R : α → α → Prop} (p : α → Bool) :
    ∀ l : List α, List.Chain' R l → List.Chain' R (l.dropWhile p)
  | [], h => h
  | a :: t, h => by
    rw [List.dropWhile_cons]
    split
    · exact chain_dw p t h.tail
    · exact h

theorem chain_rev {l : List Char} (h : List.Chain' noTwo l) :
    List.Chain' noTwo l.reverse :=
  List.chain'_reverse.mpr (h.imp fun _ _ hab => noTwo_symm hab)

theorem chain_pyStrip {l : List Char} (h : List.Chain' noTwo l) :
    List.Chain' noTwo (pyStrip l) := by
  unfold pyStrip dropTrail
  exact chain_rev (chain_dw _ _ (chain_rev (chain_dw _ _ h)))

/-! ### squeeze lemmas -/

theorem squeeze_head : ∀ l : List Char, (squeeze l).head? = l.head?
  | [] => rfl
  | [c] => rfl
  | a :: b :: r => by
    rw [squeeze]
    split
    · next h =>
      rw [squeeze_head (b :: r)]
      simp [h.1, h.2]
    · simp

theorem squeeze_chain : ∀ l : List Char, List.Chain' noTwo (squeeze l)
  | [] => by simp [squeeze]
  | [c] => by simp [squeeze]
  | a :: b :: r => by
    rw [squeeze]
    split
    · exact squeeze_chain (b :: r)
    · next h =>
      rw [List.chain'_cons']
      refine ⟨fun y hy => ?_, squeeze_chain (b :: r)⟩
      rw [squeeze_head (b :: r)] at hy
      simp at hy
      subst hy
      exact h

theorem squeeze_of_chain : ∀ l : List Char, List.Chain' noTwo l → squeeze l = l
  | [], _ => rfl
  | [c], _ => rfl
  | a :: b :: r, h => by
    rw [squeeze, if_neg (List.chain'_cons.mp h).1,
      squeeze_of_chain (b :: r) (List.chain'_cons.mp h).2]

theorem mem_of_mem_squeeze : ∀ {c : Char} (l : List Char), c ∈ squeeze l → c ∈ l
  | _, [], h => h
  | _, [_], h => h
  | c, a :: b :: r, h => by
    rw [squeeze] at h
    split at h
    · exact List.mem_cons_of_mem a (mem_of_mem_squeeze (b :: r) h)
    · rcases List.mem_cons.mp h with h | h
      · exact h ▸ List.mem_cons_self _ _
      · exact List.mem_cons_of_mem a (mem_of_mem_squeeze (b :: r) h)

/-! ### preprocess_text lemmas -/

theorem preprocess_pipeline (t : List Char) :
    preprocess_text t
      = (pyStrip (squeeze ((t.map pyLower).map wsToSp))).filter keptChar := by
  unfold preprocess_text
  split
  · next h => subst h; rfl
  · rfl

theorem mem_preprocess {c : Char} {x : List Char} (h : c ∈ preprocess_text x) :
    keptChar c = true ∧ pyLower c = c ∧ (isPySpace c = true → c = ' ') := by
  rw [preprocess_pipeline] at h
  have h1 := List.of_mem_filter h
  have h2 : c ∈ squeeze ((x.map pyLower).map wsToSp) :=
    pyStrip_subset (List.mem_of_mem_filter h)
  have h3 : c ∈ (x.map pyLower).map wsToSp := mem_of_mem_squeeze _ h2
  obtain ⟨b, hb, rfl⟩ := List.mem_map.mp h3
  obtain ⟨a, _, rfl⟩ := List.mem_map.mp hb
  exact ⟨h1, wsToSp_lower_fix a, wsToSp_space a⟩

theorem map_pyLower_fix {l : List Char} (h : ∀ c ∈ l, pyLower c = c) :
    l.map pyLower = l :=
  (List.map_congr_left h).trans (List.map_id l)

theorem map_wsToSp_fix {l : List Char} (h : ∀ c ∈ l, isPySpace c = true → c = ' ') :
    l.map wsToSp = l := by
  refine (List.map_congr_left fun c hc => ?_).trans (List.map_id l)
  unfold wsToSp
  split
  · next hs => exact (h c hc hs).symm
  · rfl

theorem preprocess_fix {l : List Char}
    (h1 : ∀ c ∈ l, keptChar c = true)
    (h2 : ∀ c ∈ l, pyLower c = c)
    (h3 : ∀ c ∈ l, isPySpace c = true → c = ' ')
    (h4 : List.Chain' noTwo l)
    (h5 : pyStrip l = l) : preprocess_text l = l := by
  rw [preprocess_pipeline, map_pyLower_fix h2, map_wsToSp_fix h3,
    squeeze_of_chain l h4, h5]
  exact List.filter_eq_self.mpr h1

theorem preprocess_double (x : List Char) :
    preprocess_text (preprocess_text x) = pyStrip (squeeze (preprocess_text x)) := by
  rw [preprocess_pipeline (preprocess_text x),
    map_pyLower_fix (fun c hc => (mem_preprocess hc).2.1),
    map_wsToSp_fix (fun c hc => (mem_preprocess hc).2.2)]
  refine List.filter_eq_self.mpr fun a ha => ?_
  exact (mem_preprocess (mem_of_mem_squeeze _ (pyStrip_subset ha))).1

/-- Claim C7, counterexample: the normalizer is not idempotent as
stated.  On the input `"a @ b"` the special character `@` is removed
after whitespace collapsing, leaving the double space `"a  b"`, which a
second application collapses to `"a b"`. -/
theorem c7_normalize_idempotent_cex :
    ¬ (preprocess_text (preprocess_text "a @ b".data) = preprocess_text "a @ b".data) := by
  decide

/-- Claim C7, amended: the normalizer is idempotent from the second
application on — for every input string x,
`normalize (normalize (normalize x)) = normalize (normalize x)`.
Idempotence can fail only on the first application, when removing a
special character creates doubled or edge whitespace that the next
application collapses or strips. -/
theorem c7_normalize_idempotent_amended (x : List Char) :
    preprocess_text (preprocess_text (preprocess_text x))
      = preprocess_text (preprocess_text x) := by
  have hz := preprocess_double x
  refine preprocess_fix
    (fun c hc => (mem_preprocess hc).1)
    (fun c hc => (mem_preprocess hc).2.1)
    (fun c hc => (mem_preprocess hc).2.2)
    ?_ ?_
  · rw [hz]
    exact chain_pyStrip (squeeze_chain (preprocess_text x))
  · rw [hz]
    exact pyStrip_idem _

/-! ### Stable-sort and retrieval lemmas -/

theorem collectPosts_eq (ratio : List Char → List Char → ℚ)
    (kws : List (List Char)) (qp : List Char) (θ : ℚ) :
    ∀ ps : List Post,
      collectPosts ratio kws qp θ ps
        = (ps.map (score_post ratio kws qp)).filter fun s => decide (θ ≤ s.score)
  | [] => rfl
  | p :: ps => by
    rw [collectPosts, List.map_cons, List.filter_cons, collectPosts_eq ratio kws qp θ ps]
    by_cases h : θ ≤ (score_post ratio kws qp p).score <;> simp [h]

theorem collectContent_eq (ratio : List Char → List Char → ℚ)
    (kws : List (List Char)) (qp : List Char) (θ : ℚ) :
    ∀ cs : List ContentItem,
      collectContent ratio kws qp θ cs
        = (cs.map (score_content ratio kws qp)).filter fun s => decide (θ ≤ s.score)
  | [] => rfl
  | c :: cs => by
    rw [collectContent, List.map_cons, List.filter_cons, collectContent_eq ratio kws qp θ cs]
    by_cases h : θ ≤ (score_content ratio kws qp c).score <;> simp [h]

theorem filter_key_orderedInsert {α : Type} (key : α → ℚ) (v : ℚ) (a : α) :
    ∀ m : List α,
      (List.orderedInsert (keyGe key) a m).filter (fun x => decide (key x = v))
        = ((a :: m).filter fun x => decide (key x = v))
  | [] => rfl
  | b :: bs => by
    rw [List.orderedInsert]
    split
    · rfl
    · next hr =>
      have hlt : key a < key b := not_le.mp hr
      have IH := filter_key_orderedInsert key v a bs
      by_cases hb : key b = v <;> by_cases ha : key a = v
      · exact absurd (ha.trans hb.symm) hlt.ne
      · simp [List.filter_cons, hb, ha, IH]
      · simp [List.filter_cons, hb, ha, IH]
      · simp [List.filter_cons, hb, ha, IH]

theorem filter_key_insertionSort {α : Type} (key : α → ℚ) (v : ℚ) :
    ∀ l : List α,
      (List.insertionSort (keyGe key) l).filter (fun x => decide (key x = v))
        = l.filter fun x => decide (key x = v)
  | [] => rfl
  | a :: l => by
    rw [List.insertionSort, filter_key_orderedInsert, List.filter_cons, List.filter_cons,
      filter_key_insertionSort key v l]

theorem find_similar_posts_eq (ratio : List Char → List Char → ℚ)
    (posts : List Post) (q : List Char) (θ : ℚ) :
    find_similar_posts ratio posts q θ
      = (List.insertionSort (keyGe ScoredPost.score)
          ((posts.map (score_post ratio (extract_keywords q) (preprocess_text q))).filter
            fun s => decide (θ ≤ s.score))).take 5 := by
  unfold find_similar_posts
  split
  · next h => subst h; rfl
  · rw [collectPosts_eq]

theorem find_relevant_content_eq (ratio : List Char → List Char → ℚ)
    (contents : List ContentItem) (q : List Char) (θ : ℚ) :
    find_relevant_content ratio contents q θ
      = (List.insertionSort (keyGe ScoredContent.score)
          ((contents.map (score_content ratio (extract_keywords q) (preprocess_text q))).filter
            fun s => decide (θ ≤ s.score))).take 3 := by
  unfold find_relevant_content
  split
  · next h => subst h; rfl
  · rw [collectContent_eq]

theorem topk_sorted {α : Type} (key : α → ℚ) (k : ℕ) (l : List α) :
    List.Sorted (keyGe key) ((List.insertionSort (keyGe key) l).take k) :=
  List.Pairwise.sublist (List.take_sublist _ _)
    (List.sorted_insertionSort (keyGe key) l)

theorem topk_stable {α : Type} (key : α → ℚ) (k : ℕ) (l : List α) (v : ℚ) :
    ((List.insertionSort (keyGe key) l).take k).filter (fun x => decide (key x = v))
      <+: l.filter fun x => decide (key x = v) := by
  rw [← filter_key_insertionSort key v l]
  exact List.IsPrefix.filter _ (List.take_prefix k _)

/-- Claim C2: for every question and each corpus, the retriever returns
exactly the scored items clearing the stage threshold, stably sorted by
descending final score (characterized by the `insertionSort` equation
plus, for ties, the filter-prefix stability clause), truncated to the
top k (5 posts, 3 content items); the result is empty — a normal
outcome — whenever the corpus is empty or nothing clears threshold. -/
theorem c2_retrieval_spec (ratio : List Char → List Char → ℚ)
    (posts : List Post) (contents : List ContentItem) (q : List Char) (θp θc : ℚ) :
    (find_similar_posts ratio posts q θp
        = (List.insertionSort (keyGe ScoredPost.score)
            ((posts.map (score_post ratio (extract_keywords q) (preprocess_text q))).filter
              fun s => decide (θp ≤ s.score))).take 5)
    ∧ (find_similar_posts ratio posts q θp).length ≤ 5
    ∧ (∀ x ∈ find_similar_posts ratio posts q θp, θp ≤ x.score)
    ∧ List.Sorted (keyGe ScoredPost.score) (find_similar_posts ratio posts q θp)
    ∧ (∀ v : ℚ,
        (find_similar_posts ratio posts q θp).filter (fun x => decide (x.score = v))
          <+: ((posts.map (score_post ratio (extract_keywords q) (preprocess_text q))).filter
                (fun s => decide (θp ≤ s.score))).filter fun x => decide (x.score = v))
    ∧ ((posts = []
          ∨ (posts.map (score_post ratio (extract_keywords q) (preprocess_text q))).filter
              (fun s => decide (θp ≤ s.score)) = [])
        → find_similar_posts ratio posts q θp = [])
    ∧ (find_relevant_content ratio contents q θc
        = (List.insertionSort (keyGe ScoredContent.score)
            ((contents.map (score_content ratio (extract_keywords q) (preprocess_text q))).filter
              fun s => decide (θc ≤ s.score))).take 3)
    ∧ (find_relevant_content ratio contents q θc).length ≤ 3
    ∧ (∀ x ∈ find_relevant_content ratio contents q θc, θc ≤ x.score)
    ∧ List.Sorted (keyGe ScoredContent.score) (find_relevant_content ratio contents q θc)
    ∧ (∀ v : ℚ,
        (find_relevant_content ratio contents q θc).filter (fun x => decide (x.score = v))
          <+: ((contents.map (score_content ratio (extract_keywords q) (preprocess_text q))).filter
                (fun s => decide (θc ≤ s.score))).filter fun x => decide (x.score = v))
    ∧ ((contents = []
          ∨ (contents.map (score_content ratio (extract_keywords q) (preprocess_text q))).filter
              (fun s => decide (θc ≤ s.score)) = [])
        → find_relevant_content ratio contents q θc = []) := by
  have hP := find_similar_posts_eq ratio posts q θp
  have hC := find_relevant_content_eq ratio contents q θc
  refine ⟨hP, ?_, ?_, ?_, ?_, ?_, hC, ?_, ?_, ?_, ?_, ?_⟩
  · rw [hP]; exact List.length_take_le 5 _
  · intro x hx
    rw [hP] at hx
    have hx2 := (List.mem_insertionSort _).mp (List.mem_of_mem_take hx)
    simpa using List.of_mem_filter hx2
  · rw [hP]; exact topk_sorted _ 5 _
  · intro v
    rw [hP]
    exact topk_stable ScoredPost.score 5 _ v
  · intro h
    rcases h with h | h
    · subst h; rfl
    · rw [hP, h]; rfl
  · rw [hC]; exact List.length_take_le 3 _
  · intro x hx
    rw [hC] at hx
    have hx2 := (List.mem_insertionSort _).mp (List.mem_of_mem_take hx)
    simpa using List.of_mem_filter hx2
  · rw [hC]; exact topk_sorted _ 3 _
  · intro v
    rw [hC]
    exact topk_stable ScoredContent.score 3 _ v
  · intro h
    rcases h with h | h
    · subst h; rfl
    · rw [hC, h]; rfl

set_option maxRecDepth 10000 in
unseal Rat.add Rat.mul Rat.inv in
/-- Witness for claim C2 at a concrete corpus: with a constant
similarity of 100, the single scored post is retrieved and clears the
60 threshold, and retrieval over the empty content corpus returns
`[]`. -/
theorem c2_retrieval_spec_witness :
    (60 : ℚ) ≤ (score_post (fun _ _ => 100) (extract_keywords "python".data)
        (preprocess_text "python".data) ⟨some "python".data, none, none⟩).score
    ∧ find_relevant_content (fun _ _ => 100) [] "python".data 50 = [] :=
  ⟨(c2_retrieval_spec (fun _ _ => 100) [⟨some "python".data, none, none⟩] []
        "python".data 60 50).2.2.1 _ (by decide),
   (c2_retrieval_spec (fun _ _ => 100) [⟨some "python".data, none, none⟩] []
        "python".data 60 50).2.2.2.2.2.2.2.2.2.2.2 (Or.inl rfl)⟩

/-! ### Link, keyword and degradation lemmas -/

theorem contentLinks_eq : ∀ l : List ScoredContent, contentLinks l = l.filterMap contentLink
  | [] => rfl
  | c :: cs => by
    rw [contentLinks, List.filterMap_cons, contentLinks_eq cs]
    cases contentLink c <;> rfl

theorem postLinks_eq : ∀ l : List ScoredPost, postLinks l = l.filterMap postLink
  | [] => rfl
  | p :: ps => by
    rw [postLinks, List.filterMap_cons, postLinks_eq ps]
    cases postLink p <;> rfl

theorem not_blank {q : List Char} (h : pyStrip q ≠ []) : ¬(q = [] ∨ pyStrip q = []) := by
  rintro (rfl | he)
  · exact h rfl
  · exact h he

theorem get_answer_nonblank (ratio : List Char → List Char → ℚ)
    (posts : List Post) (contents : List ContentItem) (q : List Char)
    (h : ¬(q = [] ∨ pyStrip q = [])) :
    get_answer ratio posts contents q
      = ⟨generate_answer q (find_similar_posts ratio posts q 60)
            (find_relevant_content ratio contents q 50),
         (contentLinks (find_relevant_content ratio contents q 50)
            ++ postLinks (find_similar_posts ratio posts q 60)).take 5⟩ := by
  unfold get_answer
  rw [if_neg h]

theorem tech_terms_ne_nil : ∀ t ∈ tech_terms, t ≠ [] := by
  decide

theorem extract_keywords_ne_nil {q kw : List Char} (h : kw ∈ extract_keywords q) :
    kw ≠ [] := by
  unfold extract_keywords at h
  rw [List.mem_dedup, List.mem_append] at h
  rcases h with h | h
  · exact tech_terms_ne_nil kw (List.mem_of_mem_filter h)
  · have h2 := List.of_mem_filter (List.mem_of_mem_take h)
    intro he
    rw [he] at h2
    simp at h2

theorem isSubstr_nil {kw : List Char} (h : kw ≠ []) : isSubstr kw [] = false := by
  cases kw with
  | nil => exact absurd rfl h
  | cons a t => rfl

theorem preprocess_single_space : preprocess_text [' '] = [] := by
  decide

theorem score_post_empty (ratio : List Char → List Char → ℚ)
    (kws : List (List Char)) (qp : List Char)
    (hr : ∀ s, ratio s [] = 0) (hkw : ∀ kw ∈ kws, kw ≠ []) :
    (score_post ratio kws qp ⟨none, none, none⟩).score = 0 := by
  have hc : (kws.countP fun kw => isSubstr kw (preprocess_text [' '])) = 0 := by
    rw [preprocess_single_space]
    exact List.countP_eq_zero.mpr fun kw hkw2 => by
      rw [isSubstr_nil (hkw kw hkw2)]; exact Bool.false_ne_true
  show post_final (ratio qp (preprocess_text [])) (ratio qp (preprocess_text [' ']))
      (kws.countP fun kw => isSubstr kw (preprocess_text [' '])) = 0
  rw [hc, preprocess_single_space]
  show post_final (ratio qp []) (ratio qp []) 0 = 0
  rw [hr qp]
  unfold post_final post_keyword_bonus
  norm_num

theorem score_content_empty (ratio : List Char → List Char → ℚ)
    (kws : List (List Char)) (qp : List Char)
    (hr : ∀ s, ratio s [] = 0) (hkw : ∀ kw ∈ kws, kw ≠ []) :
    (score_content ratio kws qp ⟨none, none, none⟩).score = 0 := by
  have hc : (kws.countP fun kw => isSubstr kw (preprocess_text [' '])) = 0 := by
    rw [preprocess_single_space]
    exact List.countP_eq_zero.mpr fun kw hkw2 => by
      rw [isSubstr_nil (hkw kw hkw2)]; exact Bool.false_ne_true
  show content_final (ratio qp (preprocess_text [' ']))
      (kws.countP fun kw => isSubstr kw (preprocess_text [' '])) = 0
  rw [hc, preprocess_single_space, hr qp]
  unfold content_final content_keyword_bonus
  norm_num

/-- Claim C1: the post scorer computes
`final_score = max(title_score, content_score * 0.8) + min(keyword_matches * 10, 30)`
with `title_score = partial_ratio(normalize Q, normalize P.title)`,
`content_score = partial_ratio(normalize Q, normalize (P.title ++ " " ++ P.content))`
and `keyword_matches` the number of extracted keywords of Q occurring as
substrings of the normalized combined text; the content scorer computes
`partial_ratio(normalize Q, normalize (C.title ++ " " ++ C.description)) + min(keyword_matches * 15, 40)`
counted the same way; and every item the retrievers return carries
exactly this score of some corpus element. -/
theorem c1_scorer_formula (ratio : List Char → List Char → ℚ)
    (q : List Char) (p : Post) (c : ContentItem) :
    ((score_post ratio (extract_keywords q) (preprocess_text q) p).score
      = max (ratio (preprocess_text q) (preprocess_text (p.title.getD [])))
          (ratio (preprocess_text q)
              (preprocess_text (p.title.getD [] ++ ' ' :: p.content.getD [])) * (4 / 5))
        + min ((((extract_keywords q).countP fun kw =>
              isSubstr kw (preprocess_text (p.title.getD [] ++ ' ' :: p.content.getD []))) : ℚ)
            * 10) 30)
    ∧ ((score_content ratio (extract_keywords q) (preprocess_text q) c).score
      = ratio (preprocess_text q)
          (preprocess_text (c.title.getD [] ++ ' ' :: c.description.getD []))
        + min ((((extract_keywords q).countP fun kw =>
              isSubstr kw (preprocess_text (c.title.getD [] ++ ' ' :: c.description.getD []))) : ℚ)
            * 15) 40)
    ∧ (∀ (posts : List Post) (θ : ℚ) x, x ∈ find_similar_posts ratio posts q θ →
        ∃ p2 ∈ posts, x = score_post ratio (extract_keywords q) (preprocess_text q) p2)
    ∧ (∀ (contents : List ContentItem) (θ : ℚ) x, x ∈ find_relevant_content ratio contents q θ →
        ∃ c2 ∈ contents, x = score_content ratio (extract_keywords q) (preprocess_text q) c2) := by
  refine ⟨rfl, rfl, ?_, ?_⟩
  · intro posts θ x hx
    rw [find_similar_posts_eq] at hx
    have hx2 := (List.mem_insertionSort _).mp (List.mem_of_mem_take hx)
    obtain ⟨p2, hp2, rfl⟩ := List.mem_map.mp (List.mem_of_mem_filter hx2)
    exact ⟨p2, hp2, rfl⟩
  · intro contents θ x hx
    rw [find_relevant_content_eq] at hx
    have hx2 := (List.mem_insertionSort _).mp (List.mem_of_mem_take hx)
    obtain ⟨c2, hc2, rfl⟩ := List.mem_map.mp (List.mem_of_mem_filter hx2)
    exact ⟨c2, hc2, rfl⟩

set_option maxRecDepth 10000 in
unseal Rat.add Rat.mul Rat.inv in
/-- Witness for claim C1: with a constant similarity of 70, the single
retrieved post for the question `"pandas"` is the scored image of the
corpus element. -/
theorem c1_scorer_formula_witness :
    ∃ p2 ∈ [(⟨some "pandas".data, none, none⟩ : Post)],
      score_post (fun _ _ => 70) (extract_keywords "pandas".data)
          (preprocess_text "pandas".data) ⟨some "pandas".data, none, none⟩
        = score_post (fun _ _ => 70) (extract_keywords "pandas".data)
            (preprocess_text "pandas".data) p2 :=
  (c1_scorer_formula (fun _ _ => 70) "pandas".data ⟨some "pandas".data, none, none⟩
      ⟨none, none, none⟩).2.2.1 [⟨some "pandas".data, none, none⟩] 60 _ (by decide)

/-- Claim C3: for every non-blank question the links list is the
content links (ranked order, non-empty urls only, no cap) followed by
the post links, truncated to the first 5; items without a url are
skipped, no URL deduplication happens (the equation is with
`filterMap`, which keeps duplicates), and the list never exceeds 5. -/
theorem c3_link_assembly :
    (∀ (ratio : List Char → List Char → ℚ) (posts : List Post)
        (contents : List ContentItem) (q : List Char), pyStrip q ≠ [] →
        (get_answer ratio posts contents q).links
          = ((find_relevant_content ratio contents q 50).filterMap contentLink
              ++ (find_similar_posts ratio posts q 60).filterMap postLink).take 5)
    ∧ (∀ (ratio : List Char → List Char → ℚ) (posts : List Post)
        (contents : List ContentItem) (q : List Char),
        (get_answer ratio posts contents q).links.length ≤ 5) := by
  constructor
  · intro ratio posts contents q hq
    rw [get_answer_nonblank ratio posts contents q (not_blank hq)]
    show (contentLinks _ ++ postLinks _).take 5 = _
    rw [contentLinks_eq, postLinks_eq]
  · intro ratio posts contents q
    unfold get_answer
    split
    · exact Nat.le_of_lt_succ (by norm_num)
    · exact List.length_take_le 5 _

set_option maxRecDepth 10000 in
unseal Rat.add Rat.mul Rat.inv in
/-- Witness for claim C3 at the question `"hi"` over empty corpora. -/
theorem c3_link_assembly_witness :
    (get_answer (fun _ _ => 0) [] [] "hi".data).links
      = ((find_relevant_content (fun _ _ => 0) [] "hi".data 50).filterMap contentLink
          ++ (find_similar_posts (fun _ _ => 0) [] "hi".data 60).filterMap postLink).take 5 :=
  c3_link_assembly.1 (fun _ _ => 0) [] [] "hi".data (by decide)

/-- Claim C5: a blank (empty or all-whitespace) question returns the
fixed prompt answer with an empty links list, for every corpus pair —
in particular no scoring of either corpus influences the result. -/
theorem c5_blank_question (ratio : List Char → List Char → ℚ)
    (posts : List Post) (contents : List ContentItem) (q : List Char)
    (h : q = [] ∨ pyStrip q = []) :
    get_answer ratio posts contents q = ⟨promptMessage, []⟩ := by
  unfold get_answer
  rw [if_pos h]

/-- Witness for claim C5 at the whitespace-only question made of a
space and a tab, over non-empty corpora. -/
theorem c5_blank_question_witness :
    get_answer (fun _ _ => 100)
        [⟨some "t".data, some "c".data, some "u".data⟩]
        [⟨some "t".data, some "d".data, some "u".data⟩] [' ', '\t']
      = ⟨promptMessage, []⟩ :=
  c5_blank_question (fun _ _ => 100) _ _ [' ', '\t'] (Or.inr (by decide))

/-- Claim C4: `get_answer` is total — it returns an `{answer, links}`
payload for every question and every corpus pair, including records
with all fields missing; an item with no fields scores 0 under any
similarity function that gives empty text zero similarity (so the
keyword bonus is 0 and nothing clears threshold), and corpora made
entirely of such records degrade to the fixed fallback payload rather
than an error. -/
theorem c4_degrade_no_raise :
    (∀ (ratio : List Char → List Char → ℚ) (posts : List Post)
        (contents : List ContentItem) (q : List Char),
        ∃ ans links, get_answer ratio posts contents q = ⟨ans, links⟩)
    ∧ (∀ (ratio : List Char → List Char → ℚ) (kws : List (List Char)) (qp : List Char),
        (∀ s, ratio s [] = 0) → (∀ kw ∈ kws, kw ≠ []) →
        (score_post ratio kws qp ⟨none, none, none⟩).score = 0
          ∧ (score_content ratio kws qp ⟨none, none, none⟩).score = 0)
    ∧ (∀ (ratio : List Char → List Char → ℚ) (q : List Char) (n m : ℕ),
        (∀ s, ratio s [] = 0) → pyStrip q ≠ [] →
        get_answer ratio (List.replicate n ⟨none, none, none⟩)
            (List.replicate m ⟨none, none, none⟩) q
          = ⟨fallbackMessage, []⟩) := by
  refine ⟨fun ratio posts contents q => ⟨_, _, rfl⟩,
    fun ratio kws qp hr hkw =>
      ⟨score_post_empty ratio kws qp hr hkw, score_content_empty ratio kws qp hr hkw⟩, ?_⟩
  intro ratio q n m hr hq
  have hkw : ∀ kw ∈ extract_keywords q, kw ≠ [] := fun kw h => extract_keywords_ne_nil h
  have hposts : find_similar_posts ratio (List.replicate n ⟨none, none, none⟩) q 60 = [] := by
    rw [find_similar_posts_eq]
    have hf : ((List.replicate n (⟨none, none, none⟩ : Post)).map
          (score_post ratio (extract_keywords q) (preprocess_text q))).filter
            (fun s => decide ((60 : ℚ) ≤ s.score)) = [] := by
      rw [List.filter_eq_nil_iff]
      intro x hx
      obtain ⟨p2, hp2, rfl⟩ := List.mem_map.mp hx
      rw [List.eq_of_mem_replicate hp2]
      rw [decide_eq_true_eq, score_post_empty ratio _ _ hr hkw]
      norm_num
    rw [hf]
    rfl
  have hcontents : find_relevant_content ratio (List.replicate m ⟨none, none, none⟩) q 50 = [] := by
    rw [find_relevant_content_eq]
    have hf : ((List.replicate m (⟨none, none, none⟩ : ContentItem)).map
          (score_content ratio (extract_keywords q) (preprocess_text q))).filter
            (fun s => decide ((50 : ℚ) ≤ s.score)) = [] := by
      rw [List.filter_eq_nil_iff]
      intro x hx
      obtain ⟨c2, hc2, rfl⟩ := List.mem_map.mp hx
      rw [List.eq_of_mem_replicate hc2]
      rw [decide_eq_true_eq, score_content_empty ratio _ _ hr hkw]
      norm_num
    rw [hf]
    rfl
  rw [get_answer_nonblank _ _ _ _ (not_blank hq), hposts, hcontents]
  simp [generate_answer, contentLinks, postLinks]

set_option maxRecDepth 10000 in
unseal Rat.add Rat.mul Rat.inv in
/-- Witness for claim C4: corpora of one all-fields-missing record each,
with the zero similarity function, degrade to the fallback payload on
the question `"hello"`. -/
theorem c4_degrade_no_raise_witness :
    get_answer (fun _ _ => 0) (List.replicate 1 ⟨none, none, none⟩)
        (List.replicate 1 ⟨none, none, none⟩) "hello".data
      = ⟨fallbackMessage, []⟩ :=
  c4_degrade_no_raise.2.2 (fun _ _ => 0) "hello".data 1 1 (fun _ => rfl) (by decide)

set_option maxRecDepth 10000 in
unseal Rat.add Rat.mul Rat.inv in
/-- Claim C6: for any similarity function with non-negative values,
every final score of either scorer is non-negative (and finite, being a
rational); and with a similarity function bounded by the raw 0–100
scale the fused score can still exceed 100 because of the additive
keyword bonus — exhibited concretely — so the excess is real and not
normalized away. -/
theorem c6_score_bounds :
    (∀ (ratio : List Char → List Char → ℚ) (kws : List (List Char))
        (qp : List Char) (p : Post),
        (∀ a b, 0 ≤ ratio a b) → 0 ≤ (score_post ratio kws qp p).score)
    ∧ (∀ (ratio : List Char → List Char → ℚ) (kws : List (List Char))
        (qp : List Char) (c : ContentItem),
        (∀ a b, 0 ≤ ratio a b) → 0 ≤ (score_content ratio kws qp c).score)
    ∧ (∃ (ratio : List Char → List Char → ℚ) (q : List Char) (p : Post),
        (∀ a b, 0 ≤ ratio a b ∧ ratio a b ≤ 100)
          ∧ 100 < (score_post ratio (extract_keywords q) (preprocess_text q) p).score) := by
  refine ⟨?_, ?_, ?_⟩
  · intro ratio kws qp p h
    show 0 ≤ post_final _ _ _
    unfold post_final post_keyword_bonus
    apply add_nonneg (le_trans (h _ _) (le_max_left _ _))
    exact le_min (by positivity) (by norm_num)
  · intro ratio kws qp c h
    show 0 ≤ content_final _ _
    unfold content_final content_keyword_bonus
    apply add_nonneg (h _ _)
    exact le_min (by positivity) (by norm_num)
  · refine ⟨fun _ _ => 100, "python pandas numpy".data,
      ⟨some "python pandas numpy".data, none, none⟩,
      fun a b => ⟨by norm_num, le_refl _⟩, ?_⟩
    decide

/-- Witness for claim C6: the zero similarity function is non-negative
and gives a non-negative post score on an empty record. -/
theorem c6_score_bounds_witness :
    0 ≤ (score_post (fun _ _ => 0) [] [] ⟨none, none, none⟩).score :=
  c6_score_bounds.1 (fun _ _ => 0) [] [] ⟨none, none, none⟩ fun _ _ => le_refl 0

/-- Claim C8: holding the fuzzy component scores fixed, the fused final
score of either scorer is monotone non-decreasing in the number of
exact keyword matches — the bonuses `min(k * 10, 30)` and
`min(k * 15, 40)` never decrease as k grows. -/
theorem c8_bonus_monotone (ts cs s : ℚ) (k₁ k₂ : ℕ) (h : k₁ ≤ k₂) :
    post_final ts cs k₁ ≤ post_final ts cs k₂
      ∧ content_final s k₁ ≤ content_final s k₂ := by
  have hcast : (k₁ : ℚ) ≤ (k₂ : ℚ) := Nat.cast_le.mpr h
  constructor
  · unfold post_final post_keyword_bonus
    apply add_le_add_left
    exact min_le_min (mul_le_mul_of_nonneg_right hcast (by norm_num)) le_rfl
  · unfold content_final content_keyword_bonus
    apply add_le_add_left
    exact min_le_min (mul_le_mul_of_nonneg_right hcast (by norm_num)) le_rfl

/-- Witness for claim C8 at component scores 10, 20, 5 and keyword
counts 1 and 2. -/
theorem c8_bonus_monotone_witness :
    post_final 10 20 1 ≤ post_final 10 20 2
      ∧ content_final 5 1 ≤ content_final 5 2 :=
  c8_bonus_monotone 10 20 5 1 2 (by decide)

/-- Claim C9: for every loaded corpus pair the stats query reports the
post count, the content count, their sum as the total (always equal to
the sum of the two per-corpus counts), and the clock timestamp. -/
theorem c9_stats_counts (posts : List Post) (contents : List ContentItem) (now : ℕ) :
    (get_stats posts contents now).discourse_posts = posts.length
    ∧ (get_stats posts contents now).course_content_items = contents.length
    ∧ (get_stats posts contents now).total_items = posts.length + contents.length
    ∧ (get_stats posts contents now).total_items
        = (get_stats posts contents now).discourse_posts
          + (get_stats posts contents now).course_content_items
    ∧ (get_stats posts contents now).last_updated = now :=
  ⟨rfl, rfl, rfl, rfl, rfl⟩

/-- Claim C10: with the process clock made explicit, the answer path is
deterministic — two invocations with the same question and corpora at
different clock times return identical payloads (it reads no clock and
uses no randomness) — while the stats query does depend on the clock,
differing whenever the timestamps differ. -/
theorem c10_deterministic_answer :
    (∀ (ratio : List Char → List Char → ℚ) (posts : List Post)
        (contents : List ContentItem) (q : List Char) (n₁ n₂ : ℕ),
        handle_question ratio posts contents q n₁
          = handle_question ratio posts contents q n₂)
    ∧ (∀ (posts : List Post) (contents : List ContentItem) (n₁ n₂ : ℕ),
        n₁ ≠ n₂ → get_stats posts contents n₁ ≠ get_stats posts contents n₂) := by
  constructor
  · intro ratio posts contents q n₁ n₂
    rfl
  · intro posts contents n₁ n₂ h heq
    exact h (congrArg Stats.last_updated heq)

/-- Witness for claim C10: the same question at clock times 0 and 1
gives the same payload, while the stats at times 0 and 1 differ. -/
theorem c10_deterministic_answer_witness :
    handle_question (fun _ _ => 0) [] [] "hi".data 0
        = handle_question (fun _ _ => 0) [] [] "hi".data 1
    ∧ get_stats [] [] 0 ≠ get_stats [] [] 1 :=
  ⟨c10_deterministic_answer.1 (fun _ _ => 0) [] [] "hi".data 0 1,
   c10_deterministic_answer.2 [] [] 0 1 (by decide)⟩

end VirtualTA
